import Mathlib

/-!
Verification of the fabber_core specification against the source.

Shallow embedding of the relevant parts of the code:
* transforms.h (identity / log / softplus parameter transforms),
* fwdmodel_poly.cc (polynomial forward model),
* dataset.cc (FabberRunData option parsing, output directory creation,
  multi-file data combination),
* fabber_io_newimage.cc (NIfTI intent code selection on save).

C++ doubles are modelled as real numbers; C++ std::map<string,string> as
String -> Option String; exceptions as Except values.
-/

/-- Errors thrown by FabberRunData and friends.  InvalidOptionValue carries
(key, value, reason) as in the C++ constructor; the others carry their
message or key. -/
inductive FabberError
  | invalidOptionValue (key value reason : String)
  | dataNotFound (key : String)
  | runDataError (msg : String)
  | internalError (msg : String)
deriving DecidableEq, Repr

/- ------------------------------------------------------------------ -/
/- transforms.h                                                        -/
/- ------------------------------------------------------------------ -/

/-- transforms.h line 104: IdentityTransform::ToModel returns its argument. -/
noncomputable def IdentityTransform.ToModel (val : ℝ) : ℝ := val

/-- transforms.h line 105: IdentityTransform::ToFabber returns its argument. -/
noncomputable def IdentityTransform.ToFabber (val : ℝ) : ℝ := val

/-- transforms.h line 116: LogTransform::ToModel is exp. -/
noncomputable def LogTransform.ToModel (val : ℝ) : ℝ := Real.exp val

/-- transforms.h line 117: LogTransform::ToFabber is log. -/
noncomputable def LogTransform.ToFabber (val : ℝ) : ℝ := Real.log val

/-- transforms.h line 131: SoftPlusTransform::ToModel computes
log(1 + exp(val)), with no case split on the size of val. -/
noncomputable def SoftPlusTransform.ToModel (val : ℝ) : ℝ :=
  Real.log (1 + Real.exp val)

/-- transforms.h line 132: SoftPlusTransform::ToFabber computes
log(exp(val) - 1), with no case split on the size of val. -/
noncomputable def SoftPlusTransform.ToFabber (val : ℝ) : ℝ :=
  Real.log (Real.exp val - 1)

/-- Modelled from the spec: a softplus ToModel guarded for overflow by an
asymptotic branch at |x| around 30, as the spec describes ("guarded against
overflow for |x|≳30 by asymptotic branches"); for x beyond the threshold
the asymptotic value of log(1 + exp x) is x itself, so the branch returns x
without evaluating exp x.  This definition exists only to be compared with
the actual SoftPlusTransform.ToModel above, which has no such branch. -/
noncomputable def softPlusToModelSpecGuarded (x : ℝ) : ℝ :=
  if 30 ≤ x then x else Real.log (1 + Real.exp x)

/- ------------------------------------------------------------------ -/
/- fwdmodel_poly.cc                                                    -/
/- ------------------------------------------------------------------ -/

/-- PolynomialFwdModel state: m_degree, read from the required "degree"
option in Initialize (fwdmodel_poly.cc line 41). -/
structure PolynomialFwdModel where
  m_degree : ℕ

/-- fwdmodel_poly.cc lines 62-65: NumParams returns m_degree + 1. -/
def PolynomialFwdModel.NumParams (m : PolynomialFwdModel) : ℕ :=
  m.m_degree + 1

/-- fwdmodel_poly.cc lines 76-83: NameParams pushes "c" + stringify(i)
for i = 0 .. m_degree. -/
def PolynomialFwdModel.NameParams (m : PolynomialFwdModel) : List String :=
  (List.range (m.m_degree + 1)).map (fun i => "c" ++ toString i)

/-- One pass of the inner loop of PolynomialFwdModel::Evaluate
(fwdmodel_poly.cc lines 51-57): state (res, p); for each n,
res += params(n + 1) * p (NEWMAT is 1-based, so params(n+1) is the
0-based entry n) and then p *= i. -/
noncomputable def polyAccum (params : List ℝ) (i : ℝ) (st : ℝ × ℝ) (n : ℕ) : ℝ × ℝ :=
  (st.1 + params.getD n 0 * st.2, st.2 * i)

/-- fwdmodel_poly.cc lines 44-60: Evaluate resizes the result to
data.Nrows() rows and fills row i (1-based, i = 1 .. nrows) with the inner
loop's accumulated res started from res = 0, p = 1. -/
noncomputable def PolynomialFwdModel.Evaluate (m : PolynomialFwdModel)
    (params : List ℝ) (nrows : ℕ) : List ℝ :=
  (List.range nrows).map (fun (i0 : ℕ) =>
    (((List.range (m.m_degree + 1)).foldl (polyAccum params ((i0 : ℝ) + 1)) (0, 1)).1))

/- ------------------------------------------------------------------ -/
/- dataset.cc : FabberRunData option handling                          -/
/- ------------------------------------------------------------------ -/

/-- The m_params member of FabberRunData, a std::map<string,string>,
modelled as a partial function from keys to values. -/
abbrev Params : Type := String → Option String

/-- Assignment m_params[key] = value (inserts or overwrites). -/
def setParam (ps : Params) (k v : String) : Params :=
  fun s => if s = k then some v else ps s

/-- The empty parameter map. -/
def emptyParams : Params := fun _ => none

/-- dataset.cc lines 488-497: trim removes leading and trailing space
characters (find_first_not_of(' ') / find_last_not_of(' ') — only ' ',
not tabs or other whitespace). -/
def cppTrim (cs : List Char) : List Char :=
  ((cs.dropWhile (fun c => c = ' ')).reverse.dropWhile (fun c => c = ' ')).reverse

/-- The key computed by FabberRunData::AddKeyEqualsValue (dataset.cc line
593): trim of the part of exp before the first '=' (the whole of exp when
there is no '='). -/
def keyOf (exp : String) : String :=
  String.mk (cppTrim (exp.toList.takeWhile (fun c => c ≠ '=')))

/-- The value computed by FabberRunData::AddKeyEqualsValue (dataset.cc
lines 596-599) when exp contains '=': the substring after the first '=',
truncated at the first '#' of exp when trim_comments is set, then trimmed.
string::size_type is unsigned, so when the first '#' lies at or before the
'=' the length end - (eqPos + 1) wraps around and the whole remainder is
taken. -/
def valueOf (exp : String) (trimComments : Bool) : String :=
  let cs := exp.toList
  let eqPos := (cs.takeWhile (fun c => c ≠ '=')).length
  let rest := cs.drop (eqPos + 1)
  String.mk (cppTrim
    (match (if trimComments then cs.findIdx? (fun c => c = '#') else none) with
     | some e => if eqPos + 1 ≤ e then rest.take (e - (eqPos + 1)) else rest
     | none => rest))

/-- dataset.cc lines 590-616: FabberRunData::AddKeyEqualsValue.  If exp
contains '=', the (trimmed) key must not already have a value, otherwise
InvalidOptionValue(key, value, "Already has a value: " + m_params[key]) is
thrown before anything is stored; for key "loadmodels" the value names a
shared library to load (an external side effect, m_params unchanged);
otherwise m_params[key] = value.  Without '=', m_params[exp] = "" is set
unconditionally. -/
def FabberRunData.AddKeyEqualsValue (ps : Params) (exp : String)
    (trimComments : Bool) : Except FabberError Params :=
  if '=' ∈ exp.toList then
    let key := keyOf exp
    let value := valueOf exp trimComments
    match ps key with
    | some existing =>
        .error (.invalidOptionValue key value ("Already has a value: " ++ existing))
    | none =>
        if key = "loadmodels" then
          .ok ps
        else
          .ok (setParam ps key value)
  else
    .ok (setParam ps exp "")

/-- Split a character stream into lines at newline characters, as the
getline loop of ParseParamFile does (the final segment is a line even
without a trailing newline). -/
def splitLines : List Char → List (List Char)
  | [] => [[]]
  | c :: rest =>
      if c = '\n' then [] :: splitLines rest
      else
        match splitLines rest with
        | [] => [[c]]
        | l :: ls => (c :: l) :: ls

/-- dataset.cc lines 499-521: FabberRunData::ParseParamFile.  The file
content is read line by line (getline splits on newline); each line is
trimmed; empty lines are skipped; lines whose first character is '#' are
comments; every other line is passed whole to AddKeyEqualsValue with
trim_comments = true (note: the leading "--" of the line is NOT stripped,
unlike in Parse and ParseOldStyleParamFile). -/
def FabberRunData.ParseParamFile (content : String) (ps : Params) :
    Except FabberError Params :=
  (splitLines content.toList).foldlM
    (fun acc lineCs =>
      let input := cppTrim lineCs
      if input.length > 0 then
        if input.headD ' ' = '#' then Except.ok acc
        else FabberRunData.AddKeyEqualsValue acc (String.mk input) true
      else Except.ok acc)
    ps

/-- C isspace for the default locale: the six standard whitespace
characters, as used by ParseOldStyleParamFile (dataset.cc line 535). -/
def isCSpace (c : Char) : Bool :=
  c = ' ' || c = '\t' || c = '\n' || c = '\x0b' || c = '\x0c' || c = '\r'

/-- dataset.cc lines 523-561: FabberRunData::ParseOldStyleParamFile,
reading character by character.  Non-whitespace characters accumulate into
the current word; at a whitespace character a nonempty word is dispatched:
a word starting "--" is passed (with the "--" stripped) to
AddKeyEqualsValue with trim_comments = false; a word starting "#" starts a
comment and the rest of the line is discarded (the inner while loop that
reads up to the next newline is modelled by the inComment flag); a word
starting "-@" throws "Can only use -@ on the command line"; any other word
throws an invalid-data error naming the word and the file.  When the
stream ends, a pending unterminated word is discarded without being
dispatched (the C++ loop exits without processing it; the final failed
is.get leaves the previous character in c, which never changes the
outcome). -/
def ParseOldStyleAux (fname : String) : List Char → Params → List Char → Bool →
    Except FabberError Params
  | [], ps, _, _ => .ok ps
  | c :: rest, ps, _word, true =>
      if c = '\n' then ParseOldStyleAux fname rest ps [] false
      else ParseOldStyleAux fname rest ps [] true
  | c :: rest, ps, word, false =>
      if ¬ isCSpace c then ParseOldStyleAux fname rest ps (word ++ [c]) false
      else if word = [] then ParseOldStyleAux fname rest ps [] false
      else if word.take 2 = ['-', '-'] then
        match FabberRunData.AddKeyEqualsValue ps (String.mk (word.drop 2)) false with
        | .error e => .error e
        | .ok ps2 => ParseOldStyleAux fname rest ps2 [] false
      else if word.take 1 = ['#'] then
        if c = '\n' then ParseOldStyleAux fname rest ps [] false
        else ParseOldStyleAux fname rest ps [] true
      else if word.take 2 = ['-', '@'] then
        .error (.runDataError "Can only use -@ on the command line")
      else
        .error (.runDataError
          ("Invalid data '" ++ String.mk word ++ "' found in file '" ++ fname ++ "'"))

/-- Top-level entry for ParseOldStyleParamFile on the content of the named
file. -/
def FabberRunData.ParseOldStyleParamFile (fname content : String) (ps : Params) :
    Except FabberError Params :=
  ParseOldStyleAux fname content.toList ps [] false

/-- dataset.cc lines 563-588: the loop body of FabberRunData::Parse over
argv[1..].  "-f" consumes the next argument as a parameter file
(ParseParamFile on its content) and then advances the index once more, so
the argument after the filename is skipped without being examined;
"--key[=value]" strips the "--" and records the option; "-@" consumes only
the next argument as a legacy parameter file; anything else throws.  A
trailing "-f"/"-@" with no following argument reads argv[argc] (the NULL
terminator) in C++, which is undefined behaviour; it is modelled as an
internal error. -/
def FabberRunData.ParseArgsAux (fileContents : String → String) :
    List String → Params → Except FabberError Params
  | [], ps => .ok ps
  | arg :: rest, ps =>
      if arg = "-f" then
        match rest with
        | [] => .error (.internalError "undefined behaviour: -f with no following argument")
        | [fname] =>
            -- the filename is consumed, the index is advanced past the end,
            -- and the loop exits
            match FabberRunData.ParseParamFile (fileContents fname) ps with
            | .error e => .error e
            | .ok ps2 => .ok ps2
        | fname :: _skipped :: rest3 =>
            -- the filename at a+1 is consumed and the argument at a+2 is
            -- skipped without being examined (++a twice plus the loop's a++)
            match FabberRunData.ParseParamFile (fileContents fname) ps with
            | .error e => .error e
            | .ok ps2 => FabberRunData.ParseArgsAux fileContents rest3 ps2
      else if arg.toList.take 2 = ['-', '-'] then
        match FabberRunData.AddKeyEqualsValue ps (String.mk (arg.toList.drop 2)) false with
        | .error e => .error e
        | .ok ps2 => FabberRunData.ParseArgsAux fileContents rest ps2
      else if arg = "-@" then
        match rest with
        | [] => .error (.internalError "undefined behaviour: -@ with no following argument")
        | fname :: rest2 =>
            match FabberRunData.ParseOldStyleParamFile fname (fileContents fname) ps with
            | .error e => .error e
            | .ok ps2 => FabberRunData.ParseArgsAux fileContents rest2 ps2
      else
        .error (.runDataError ("Option '" ++ arg ++ "' doesn't begin with --"))

/-- dataset.cc lines 563-588: FabberRunData::Parse sets m_params[""] =
argv[0] and then processes argv[1..]. -/
def FabberRunData.Parse (fileContents : String → String) (arg0 : String)
    (args : List String) : Except FabberError Params :=
  FabberRunData.ParseArgsAux fileContents args (setParam emptyParams "" arg0)

/- ------------------------------------------------------------------ -/
/- dataset.cc : GetOutputDir                                           -/
/- ------------------------------------------------------------------ -/

/-- Outcome of one mkdir attempt, as inspected by GetOutputDir: success;
failure with errno == EEXIST and the existing path a directory; failure
with errno == EEXIST but not a directory; any other failure. -/
inductive MkdirResult
  | ok
  | errExistIsDir
  | errExistNotDir
  | errOther
deriving DecidableEq, Repr

/-- dataset.cc lines 756-796: the retry loop of
FabberRunData::GetOutputDir.  fs models the filesystem's response to a
mkdir attempt on each name.  At the top of each pass, 50 or more previous
failures abort with an internal error naming the current candidate; then
mkdir is attempted; success uses the candidate; with overwrite set, an
EEXIST failure on an existing directory uses the candidate as-is and any
other failure aborts; without overwrite, a '+' is appended and the loop
retries. -/
def GetOutputDirLoop (fs : String → MkdirResult) (overwrite : Bool)
    (outdir : String) (count : ℕ) : Except FabberError String :=
  if 50 ≤ count then
    .error (.internalError
      ("Cannot create output directory (bad path, or too many + signs?): " ++ outdir))
  else
    match fs outdir with
    | .ok => .ok outdir
    | r =>
        if overwrite then
          if r = .errExistIsDir then .ok outdir
          else .error (.internalError
            ("Unexpected problem creating output directory in overwrite mode: " ++ outdir))
        else
          GetOutputDirLoop fs overwrite (outdir ++ "+") (count + 1)
termination_by 50 - count
decreasing_by omega

/-- dataset.cc lines 742-811: FabberRunData::GetOutputDir.  An empty
"output" option means the current directory; otherwise the retry loop
starts at the base name with count = 0. -/
def FabberRunData.GetOutputDir (fs : String → MkdirResult) (overwrite : Bool)
    (basename : String) : Except FabberError String :=
  if basename = "" then .ok "." else GetOutputDirLoop fs overwrite basename 0

/-- The name tried on the (k+1)-th mkdir attempt: the base name with k '+'
signs appended. -/
def plusName (base : String) : ℕ → String
  | 0 => base
  | k + 1 => plusName base k ++ "+"

/- ------------------------------------------------------------------ -/
/- dataset.cc : GetMainVoxelDataMultiple                               -/
/- ------------------------------------------------------------------ -/

/-- A NEWMAT matrix of voxel data, modelled as its list of rows
(timepoints); each row is the vector of voxel values. -/
abbrev Mat : Type := List (List ℝ)

/-- dataset.cc lines 907-981: FabberRunData::GetMainVoxelDataMultiple,
after the data1, data2, ... sets have been collected.  With no data set at
all, DataNotFound("data") is thrown; "singlefile" with more than one set
throws InvalidOptionValue.  "interleave" takes nTimes from the first set
and writes Row(nSets*i + j + 1) = dataSets[j].Row(i+1) for i <
nTimes, j < nSets, throwing InvalidOptionValue as soon as a set whose row
count differs from nTimes is touched (when nTimes = 0 the loop body never
runs, so no check happens and the result is empty); the nested loop fills
the rows in order, which is the flatMap below.  "concatenate" starts from
the first set and appends each further set (the &= operator).  Any other
order value throws InvalidOptionValue. -/
def FabberRunData.GetMainVoxelDataMultiple (dataSets : List Mat) (order : String) :
    Except FabberError Mat :=
  if dataSets.length < 1 then
    .error (.dataNotFound "data")
  else if order = "singlefile" ∧ dataSets.length > 1 then
    .error (.invalidOptionValue "data-order" "singlefile" "More than one file specified")
  else if order = "interleave" then
    let nTimes := (dataSets.headD []).length
    if 0 < nTimes ∧ ¬ (∀ ds ∈ dataSets, ds.length = nTimes) then
      .error (.invalidOptionValue "data-order" "interleave"
        "Data sets must all have the same number of time points")
    else
      .ok ((List.range nTimes).flatMap (fun i => dataSets.map (fun ds => ds.getD i [])))
  else if order = "concatenate" then
    .ok (dataSets.tail.foldl (fun m ds => m ++ ds) (dataSets.headD []))
  else if order = "singlefile" then
    .ok (dataSets.headD [])
  else
    .error (.invalidOptionValue "data-order" order "Value not recognized")

/- ------------------------------------------------------------------ -/
/- fabber_io_newimage.cc : SaveVoxelData                               -/
/- ------------------------------------------------------------------ -/

/-- Modelled from the spec: the VoxelDataType enumeration is declared in a
header that is not part of the sources here; fabber_io_newimage.cc
distinguishes only VDT_MVN (the final-MVN output) from every other data
type, so the enumeration is modelled with VDT_SCALAR standing for the
ordinary scalar voxel data type and VDT_MVN for the MVN type. -/
inductive VoxelDataType
  | VDT_SCALAR
  | VDT_MVN
deriving DecidableEq, Repr

/-- The NIfTI intent codes that FabberIoNewimage::SaveVoxelData can set on
the saved volume. -/
inductive NiftiIntentCode
  | NONE
  | SYMMATRIX
deriving DecidableEq, Repr

/-- fabber_io_newimage.cc lines 130-138 and 151: the switch in
FabberIoNewimage::SaveVoxelData selects NIFTI_INTENT_SYMMATRIX for
VDT_MVN and NIFTI_INTENT_NONE for every other data type; the selected
code is applied to the saved volume by output.set_intent. -/
def FabberIoNewimage.SaveVoxelDataIntent : VoxelDataType → NiftiIntentCode
  | .VDT_MVN => .SYMMATRIX
  | _ => .NONE

/- ------------------------------------------------------------------ -/
/- Theorems                                                            -/
/- ------------------------------------------------------------------ -/

lemma polyAccum_foldl (params : List ℝ) (i : ℝ) :
    ∀ (k : ℕ) (r p : ℝ),
      (List.range k).foldl (polyAccum params i) (r, p)
        = (r + ∑ n ∈ Finset.range k, params.getD n 0 * (p * i ^ n), p * i ^ k) := by
  intro k
  induction k with
  | zero => intro r p; simp
  | succ k ih =>
      intro r p
      rw [List.range_succ, List.foldl_append, ih r p]
      simp only [List.foldl_cons, List.foldl_nil, polyAccum]
      rw [Finset.sum_range_succ, Prod.mk.injEq]
      exact ⟨by ring, by ring⟩

lemma polynomial_evaluate_entry (d nrows : ℕ) (params : List ℝ) (t : ℕ)
    (ht1 : 1 ≤ t) (ht2 : t ≤ nrows) :
    ((PolynomialFwdModel.mk d).Evaluate params nrows).getD (t - 1) 0
      = ∑ n ∈ Finset.range (d + 1), params.getD n 0 * (t : ℝ) ^ n := by
  unfold PolynomialFwdModel.Evaluate
  have hlt : t - 1 < nrows := by omega
  rw [List.getD_eq_getElem?_getD, List.getElem?_map, List.getElem?_range hlt]
  simp only [Option.map_some', Option.getD_some]
  rw [polyAccum_foldl]
  have hcast : ((t - 1 : ℕ) : ℝ) + 1 = (t : ℝ) := by
    rw [Nat.cast_sub ht1]; push_cast; ring
  rw [hcast]
  simp

/-- Claim C1: composing the model-space and fabber-space maps of a
parameter transform returns the argument: over exact real arithmetic,
ToFabber(ToModel(x)) = x for the identity transform, the log transform and
the softplus transform, for every real x. -/
theorem transform_round_trip_exact (x : ℝ) :
    IdentityTransform.ToFabber (IdentityTransform.ToModel x) = x ∧
    LogTransform.ToFabber (LogTransform.ToModel x) = x ∧
    SoftPlusTransform.ToFabber (SoftPlusTransform.ToModel x) = x := by
  refine ⟨rfl, Real.log_exp x, ?_⟩
  unfold SoftPlusTransform.ToFabber SoftPlusTransform.ToModel
  rw [Real.exp_log (by positivity),
    show (1 : ℝ) + Real.exp x - 1 = Real.exp x by ring, Real.log_exp]

/-- Claim C2 counterexample: the claim says that for every x ≥ 30 the
softplus implementation takes an asymptotic branch that avoids evaluating
exp(x); in the source SoftPlusTransform::ToModel is the single expression
log(1 + exp(val)) with no branch, and at x = 30 its exact value differs
from the value x returned by the branch the spec describes. -/
theorem softplus_no_asymptotic_branch :
    softPlusToModelSpecGuarded 30 = 30 ∧ SoftPlusTransform.ToModel 30 ≠ 30 := by
  constructor
  · unfold softPlusToModelSpecGuarded
    rw [if_pos le_rfl]
  · unfold SoftPlusTransform.ToModel
    have h : (30 : ℝ) < Real.log (1 + Real.exp 30) := by
      have h1 : Real.exp 30 < 1 + Real.exp 30 := by linarith
      have h2 := Real.log_lt_log (Real.exp_pos 30) h1
      rwa [Real.log_exp] at h2
    exact (ne_of_lt h).symm

/-- Claim C2 (amended): the softplus transform computes
ToModel(x) = log(1 + exp(x)) and ToFabber(x) = log(exp(x) - 1) directly
for every input, with no asymptotic branch for large |x|; over exact real
arithmetic the two formulas are mutually inverse, ToModel(ToFabber(y)) = y
for every y > 0. -/
theorem softplus_to_model_to_fabber_inverse (y : ℝ) (hy : 0 < y) :
    SoftPlusTransform.ToModel (SoftPlusTransform.ToFabber y) = y := by
  unfold SoftPlusTransform.ToModel SoftPlusTransform.ToFabber
  have h1 : (0 : ℝ) < Real.exp y - 1 := by
    have h2 := Real.add_one_le_exp y
    nlinarith
  rw [Real.exp_log h1,
    show (1 : ℝ) + (Real.exp y - 1) = Real.exp y by ring, Real.log_exp]

/-- Witness for the amended claim C2 at y = 1. -/
theorem softplus_to_model_to_fabber_inverse_witness :
    SoftPlusTransform.ToModel (SoftPlusTransform.ToFabber 1) = 1 :=
  softplus_to_model_to_fabber_inverse 1 one_pos

/-- Claim C3: for the polynomial model of degree d, NumParams is d + 1,
NameParams lists the d + 1 names "c0", ..., "cd" in order, and for a
parameter vector of length d + 1 Evaluate returns a vector of length
nrows whose entry at 1-based index t is the sum over n = 0..d of
params(n+1) * t^n. -/
theorem polynomial_model_contract (d nrows : ℕ) (params : List ℝ)
    (_hlen : params.length = d + 1) (t : ℕ) (ht1 : 1 ≤ t) (ht2 : t ≤ nrows) :
    (PolynomialFwdModel.mk d).NumParams = d + 1 ∧
    (PolynomialFwdModel.mk d).NameParams.length = d + 1 ∧
    (∀ n, n < d + 1 → (PolynomialFwdModel.mk d).NameParams.getD n "" = "c" ++ toString n) ∧
    ((PolynomialFwdModel.mk d).Evaluate params nrows).length = nrows ∧
    ((PolynomialFwdModel.mk d).Evaluate params nrows).getD (t - 1) 0
      = ∑ n ∈ Finset.range (d + 1), params.getD n 0 * (t : ℝ) ^ n := by
  refine ⟨rfl, by simp [PolynomialFwdModel.NameParams], ?_, ?_, ?_⟩
  · intro n hn
    unfold PolynomialFwdModel.NameParams
    rw [List.getD_eq_getElem?_getD, List.getElem?_map, List.getElem?_range hn]
    simp
  · simp [PolynomialFwdModel.Evaluate]
  · exact polynomial_evaluate_entry d nrows params t ht1 ht2

/-- Witness for claim C3: degree 2, params (3, 2, -1), data with 10 rows,
prediction at 1-based index t = 5. -/
theorem polynomial_model_contract_witness :
    ((PolynomialFwdModel.mk 2).Evaluate [3, 2, -1] 10).getD 4 0
      = ∑ n ∈ Finset.range 3, ([3, 2, -1] : List ℝ).getD n 0 * ((5 : ℕ) : ℝ) ^ n :=
  (polynomial_model_contract 2 10 [3, 2, -1] rfl 5 (by norm_num) (by norm_num)).2.2.2.2

/-- Claim C8: the NIfTI intent code written by SaveVoxelData is SYMMATRIX
exactly for the final-MVN data type, and NONE for every other data
type. -/
theorem save_voxel_data_intent_symmatrix_iff (dt : VoxelDataType) :
    (FabberIoNewimage.SaveVoxelDataIntent dt = .SYMMATRIX ↔ dt = .VDT_MVN) ∧
    (dt ≠ .VDT_MVN → FabberIoNewimage.SaveVoxelDataIntent dt = .NONE) := by
  cases dt <;> simp [FabberIoNewimage.SaveVoxelDataIntent]

/-- Witness for claim C8 at the scalar data type. -/
theorem save_voxel_data_intent_witness :
    FabberIoNewimage.SaveVoxelDataIntent .VDT_SCALAR = .NONE :=
  (save_voxel_data_intent_symmatrix_iff .VDT_SCALAR).2 (by decide)

lemma plusName_shift (base : String) :
    ∀ m, plusName (base ++ "+") m = plusName base (m + 1) := by
  intro m
  induction m with
  | zero => rfl
  | succ m ih => simp only [plusName, ih]

lemma getOutputDirLoop_ok (fs : String → MkdirResult) :
    ∀ (k c : ℕ) (base : String), c + k < 50 →
      (∀ m, m < k → fs (plusName base m) ≠ .ok) →
      fs (plusName base k) = .ok →
      GetOutputDirLoop fs false base c = .ok (plusName base k) := by
  intro k
  induction k with
  | zero =>
      intro c base hc hfail hok
      have hok' : fs base = .ok := hok
      rw [GetOutputDirLoop, if_neg (by omega : ¬ 50 ≤ c)]
      simp [hok', plusName]
  | succ k ih =>
      intro c base hc hfail hok
      have h0 : fs base ≠ .ok := hfail 0 (by omega)
      have hstep : GetOutputDirLoop fs false base c
          = GetOutputDirLoop fs false (base ++ "+") (c + 1) := by
        rw [GetOutputDirLoop, if_neg (by omega : ¬ 50 ≤ c)]
        cases hfb : fs base with
        | ok => exact absurd hfb h0
        | errExistIsDir => rfl
        | errExistNotDir => rfl
        | errOther => rfl
      rw [hstep, ih (c + 1) (base ++ "+") (by omega)
        (fun m hm => by rw [plusName_shift]; exact hfail (m + 1) (by omega))
        (by rw [plusName_shift]; exact hok), plusName_shift]

lemma getOutputDirLoop_all_fail (fs : String → MkdirResult) :
    ∀ (k c : ℕ) (base : String), c + k = 50 →
      (∀ m, m < k → fs (plusName base m) ≠ .ok) →
      GetOutputDirLoop fs false base c
        = .error (.internalError
            ("Cannot create output directory (bad path, or too many + signs?): "
              ++ plusName base k)) := by
  intro k
  induction k with
  | zero =>
      intro c base hc hfail
      rw [GetOutputDirLoop, if_pos (by omega : 50 ≤ c)]
      rfl
  | succ k ih =>
      intro c base hc hfail
      have h0 : fs base ≠ .ok := hfail 0 (by omega)
      have hstep : GetOutputDirLoop fs false base c
          = GetOutputDirLoop fs false (base ++ "+") (c + 1) := by
        rw [GetOutputDirLoop, if_neg (by omega : ¬ 50 ≤ c)]
        cases hfb : fs base with
        | ok => exact absurd hfb h0
        | errExistIsDir => rfl
        | errExistNotDir => rfl
        | errOther => rfl
      rw [hstep, ih (c + 1) (base ++ "+") (by omega)
        (fun m hm => by rw [plusName_shift]; exact hfail (m + 1) (by omega)),
        plusName_shift]

/-- Claim C5: without --overwrite, GetOutputDir retries with '+' appended
after every failed creation, so the k-th name to succeed is the base name
with k '+' signs (in particular a second run against an existing directory
foo writes to foo+ and a third to foo++); after 50 unsuccessful attempts an
internal error is raised; with --overwrite an already-existing directory is
used as-is and any other creation failure raises an error. -/
theorem get_output_dir_spec (fs : String → MkdirResult) (basename : String)
    (hb : basename ≠ "") (k : ℕ) :
    (k < 50 → (∀ m, m < k → fs (plusName basename m) ≠ .ok) →
      fs (plusName basename k) = .ok →
      FabberRunData.GetOutputDir fs false basename = .ok (plusName basename k)) ∧
    ((∀ m, m < 50 → fs (plusName basename m) ≠ .ok) →
      FabberRunData.GetOutputDir fs false basename
        = .error (.internalError
            ("Cannot create output directory (bad path, or too many + signs?): "
              ++ plusName basename 50))) ∧
    (fs basename = .errExistIsDir →
      FabberRunData.GetOutputDir fs true basename = .ok basename) ∧
    (fs basename = .errExistNotDir ∨ fs basename = .errOther →
      FabberRunData.GetOutputDir fs true basename
        = .error (.internalError
            ("Unexpected problem creating output directory in overwrite mode: "
              ++ basename))) := by
  refine ⟨?_, ?_, ?_, ?_⟩
  · intro hk hfail hok
    rw [FabberRunData.GetOutputDir, if_neg hb]
    exact getOutputDirLoop_ok fs k 0 basename (by omega) hfail hok
  · intro hfail
    rw [FabberRunData.GetOutputDir, if_neg hb]
    exact getOutputDirLoop_all_fail fs 50 0 basename (by omega) hfail
  · intro hex
    rw [FabberRunData.GetOutputDir, if_neg hb, GetOutputDirLoop,
      if_neg (by omega : ¬ (50 : ℕ) ≤ 0)]
    simp [hex]
  · intro hex
    rw [FabberRunData.GetOutputDir, if_neg hb, GetOutputDirLoop,
      if_neg (by omega : ¬ (50 : ℕ) ≤ 0)]
    rcases hex with hex | hex <;> simp [hex]

/-- Witness for claim C5: mkdir fails with EEXIST on "foo" and "foo+" and
succeeds on "foo++"; without --overwrite the run writes to foo++. -/
theorem get_output_dir_spec_witness :
    FabberRunData.GetOutputDir
      (fun s => if s = "foo" ∨ s = "foo+" then MkdirResult.errExistIsDir else MkdirResult.ok)
      false "foo" = .ok (plusName "foo" 2) :=
  (get_output_dir_spec
    (fun s => if s = "foo" ∨ s = "foo+" then MkdirResult.errExistIsDir else MkdirResult.ok)
    "foo" (by decide) 2).1 (by omega) (by decide) (by decide)

lemma uniform_flatMap_length {α : Type} (g : ℕ → List α) (B : ℕ)
    (hB : ∀ i, (g i).length = B) (n : ℕ) :
    ((List.range n).flatMap g).length = n * B := by
  induction n with
  | zero => simp
  | succ n ih =>
      rw [List.range_succ, List.flatMap_append, List.length_append, ih,
        List.flatMap_singleton, hB, Nat.succ_mul]

lemma uniform_flatMap_getD {α : Type} (g : ℕ → List α) (B : ℕ)
    (hB : ∀ i, (g i).length = B) :
    ∀ (n i j : ℕ), i < n → j < B → ∀ (d : α),
      ((List.range n).flatMap g).getD (B * i + j) d = (g i).getD j d := by
  intro n
  induction n with
  | zero => intro i j hi; exact absurd hi (by omega)
  | succ n ih =>
      intro i j hi hj d
      rw [List.range_succ, List.flatMap_append, List.flatMap_singleton]
      have hlen : ((List.range n).flatMap g).length = n * B :=
        uniform_flatMap_length g B hB n
      by_cases hin : i < n
      · have hidx : B * i + j < n * B := by
          have h1 : B * i + j < B * (i + 1) := by
            rw [Nat.mul_succ]; omega
          have h2 : B * (i + 1) ≤ B * n := Nat.mul_le_mul_left B hin
          have h3 : B * n = n * B := Nat.mul_comm B n
          omega
        rw [List.getD_eq_getElem?_getD, List.getElem?_append,
          if_pos (by rw [hlen]; exact hidx), ← List.getD_eq_getElem?_getD]
        exact ih i j hin hj d
      · have hieq : i = n := by omega
        subst hieq
        have hge : ((List.range i).flatMap g).length ≤ B * i + j := by
          rw [hlen, Nat.mul_comm]; omega
        rw [List.getD_eq_getElem?_getD, List.getElem?_append_right hge, hlen,
          show B * i + j - i * B = j by rw [Nat.mul_comm]; omega,
          ← List.getD_eq_getElem?_getD]

lemma foldl_append_eq_flatten {α : Type} :
    ∀ (tl : List (List α)) (acc : List α),
      tl.foldl (fun m ds => m ++ ds) acc = acc ++ tl.flatten := by
  intro tl
  induction tl with
  | nil => intro acc; simp
  | cons x xs ih =>
      intro acc
      rw [List.foldl_cons, ih, List.flatten_cons, List.append_assoc]

/-- Claim C4 (amended): combining n ≥ 1 data files with
data-order=interleave yields, when all files have the same number T of
timepoints, a matrix of T*n rows whose row n*i+j+1 (0-based i over
timepoints, j over files) is row i+1 of file j; when the first file has at
least one timepoint and some file has a different number of timepoints, an
invalid-option error is raised (when the first file has zero timepoints
the check is skipped and an empty matrix results — see the
counterexample); concatenate stacks the files in file order; singlefile
with more than one file raises an invalid-option error; any other
data-order value raises an invalid-option error. -/
theorem get_main_voxel_data_multiple_spec (dataSets : List Mat) (T : ℕ)
    (hn : 1 ≤ dataSets.length) :
    ((∀ ds ∈ dataSets, ds.length = T) →
      ∃ M, FabberRunData.GetMainVoxelDataMultiple dataSets "interleave" = .ok M ∧
        M.length = T * dataSets.length ∧
        ∀ i j, i < T → j < dataSets.length →
          M.getD (dataSets.length * i + j) [] = (dataSets.getD j []).getD i []) ∧
    (0 < T → (dataSets.headD []).length = T → (∃ ds ∈ dataSets, ds.length ≠ T) →
      FabberRunData.GetMainVoxelDataMultiple dataSets "interleave"
        = .error (.invalidOptionValue "data-order" "interleave"
            "Data sets must all have the same number of time points")) ∧
    (FabberRunData.GetMainVoxelDataMultiple dataSets "concatenate"
      = .ok dataSets.flatten) ∧
    (1 < dataSets.length →
      FabberRunData.GetMainVoxelDataMultiple dataSets "singlefile"
        = .error (.invalidOptionValue "data-order" "singlefile"
            "More than one file specified")) ∧
    (∀ order, order ≠ "interleave" → order ≠ "concatenate" → order ≠ "singlefile" →
      FabberRunData.GetMainVoxelDataMultiple dataSets order
        = .error (.invalidOptionValue "data-order" order "Value not recognized")) := by
  refine ⟨?_, ?_, ?_, ?_, ?_⟩
  · intro hall
    have hT : (dataSets.headD []).length = T := by
      cases dataSets with
      | nil => simp at hn
      | cons d0 tl => exact hall d0 (List.mem_cons_self d0 tl)
    rw [FabberRunData.GetMainVoxelDataMultiple, if_neg (by omega),
      if_neg (fun h => absurd h.1 (by decide)), if_pos rfl]
    simp only [hT]
    rw [if_neg (fun h => h.2 (fun ds hds => by rw [hall ds hds]))]
    refine ⟨_, rfl, ?_, ?_⟩
    · exact uniform_flatMap_length _ dataSets.length (fun i => List.length_map _ _) T
    · intro i j hi hj
      rw [uniform_flatMap_getD _ dataSets.length (fun i => List.length_map _ _) T i j hi hj,
        List.getD_eq_getElem?_getD, List.getElem?_map, List.getElem?_eq_getElem hj]
      simp [List.getD_eq_getElem?_getD, List.getElem?_eq_getElem hj]
  · intro h0 hT hne
    rw [FabberRunData.GetMainVoxelDataMultiple, if_neg (by omega),
      if_neg (fun h => absurd h.1 (by decide)), if_pos rfl]
    simp only [hT]
    have hcond : 0 < T ∧ ¬ (∀ ds ∈ dataSets, ds.length = T) := by
      refine ⟨h0, fun hall => ?_⟩
      obtain ⟨ds, hds, hds'⟩ := hne
      exact hds' (hall ds hds)
    rw [if_pos hcond]
  · rw [FabberRunData.GetMainVoxelDataMultiple, if_neg (by omega),
      if_neg (fun h => absurd h.1 (by decide)), if_neg (by decide), if_pos rfl]
    rw [foldl_append_eq_flatten]
    cases dataSets with
    | nil => simp at hn
    | cons d0 tl => simp
  · intro hgt
    rw [FabberRunData.GetMainVoxelDataMultiple, if_neg (by omega),
      if_pos ⟨rfl, hgt⟩]
  · intro order h1 h2 h3
    rw [FabberRunData.GetMainVoxelDataMultiple, if_neg (by omega),
      if_neg (fun h => h3 h.1), if_neg h1, if_neg h2, if_neg h3]

/-- Claim C4 counterexample: with a first file of zero timepoints and a
second file of one timepoint the row counts differ, yet interleave raises
no error — the mismatch check sits inside the loop over the first file's
timepoints, which never runs — and an empty matrix is returned. -/
theorem get_main_voxel_data_multiple_counterexample :
    FabberRunData.GetMainVoxelDataMultiple [[], [[0]]] "interleave" = .ok [] ∧
    ([] : Mat).length ≠ ([[(0 : ℝ)]] : Mat).length := by
  exact ⟨rfl, by decide⟩

/-- Witness for claim C4: two files with two timepoints each interleave
into a four-row matrix with the stated row mapping, and singlefile with
two files is rejected. -/
theorem get_main_voxel_data_multiple_witness :
    (∃ M, FabberRunData.GetMainVoxelDataMultiple [[[1], [2]], [[3], [4]]] "interleave"
        = .ok M ∧
      M.length = 2 * ([[[1], [2]], [[3], [4]]] : List Mat).length ∧
      ∀ i j, i < 2 → j < ([[[1], [2]], [[3], [4]]] : List Mat).length →
        M.getD (([[[1], [2]], [[3], [4]]] : List Mat).length * i + j) []
          = (([[[1], [2]], [[3], [4]]] : List Mat).getD j []).getD i []) ∧
    FabberRunData.GetMainVoxelDataMultiple [[[1], [2]], [[3], [4]]] "singlefile"
      = .error (.invalidOptionValue "data-order" "singlefile"
          "More than one file specified") := by
  constructor
  · exact (get_main_voxel_data_multiple_spec [[[1], [2]], [[3], [4]]] 2 (by decide)).1
      (by decide)
  · exact (get_main_voxel_data_multiple_spec [[[1], [2]], [[3], [4]]] 2
      (by decide)).2.2.2.1 (by decide)

/-- Claim C9: AddKeyEqualsValue on an expression containing '=' whose key
already has a stored value throws InvalidOptionValue naming the key, the
new value and the existing value, storing nothing (the exception is raised
before any insertion, so the map is unchanged); on an expression without
'=' the key is set to the empty value unconditionally, silently
overwriting any existing value. -/
theorem add_key_equals_value_duplicate_and_bool (ps : Params) (exp : String)
    (tc : Bool) (old : String) :
    ('=' ∈ exp.toList → ps (keyOf exp) = some old →
      FabberRunData.AddKeyEqualsValue ps exp tc
        = .error (.invalidOptionValue (keyOf exp) (valueOf exp tc)
            ("Already has a value: " ++ old))) ∧
    ('=' ∉ exp.toList →
      FabberRunData.AddKeyEqualsValue ps exp tc = .ok (setParam ps exp "")) := by
  constructor
  · intro hmem hold
    unfold FabberRunData.AddKeyEqualsValue
    rw [if_pos hmem]
    simp only [hold]
  · intro hmem
    unfold FabberRunData.AddKeyEqualsValue
    rw [if_neg hmem]

/-- Witness for claim C9: key "a" already holds "1"; "a=2" is rejected,
while the bare boolean expression "flag" is stored with an empty value. -/
theorem add_key_equals_value_witness :
    (FabberRunData.AddKeyEqualsValue (setParam emptyParams "a" "1") "a=2" true
      = .error (.invalidOptionValue (keyOf "a=2") (valueOf "a=2" true)
          ("Already has a value: " ++ "1"))) ∧
    (FabberRunData.AddKeyEqualsValue (setParam emptyParams "a" "1") "flag" true
      = .ok (setParam (setParam emptyParams "a" "1") "flag" "")) := by
  constructor
  · exact (add_key_equals_value_duplicate_and_bool (setParam emptyParams "a" "1")
      "a=2" true "1").1 (by decide) rfl
  · exact (add_key_equals_value_duplicate_and_bool (setParam emptyParams "a" "1")
      "flag" true "1").2 (by decide)

/-- Claim C6 (evaluation at the failing input): parsing an option file
consisting of the single line "--key=value" records the option under the
key "--key" — ParseParamFile passes the whole line to AddKeyEqualsValue
without stripping the leading "--", unlike the command-line parser and the
-@ parser — so the option "key" remains unset. -/
theorem parse_param_file_keeps_dashes :
    ∃ ps2, FabberRunData.ParseParamFile "--key=value" emptyParams = .ok ps2 ∧
      ps2 "--key" = some "value" ∧ ps2 "key" = none := by
  exact ⟨setParam emptyParams "--key" "value", rfl, rfl, rfl⟩

lemma dropWhile_eq_self_of_not {p : Char → Bool} :
    ∀ (l : List Char), (∀ c ∈ l, p c = false) → l.dropWhile p = l
  | [], _ => rfl
  | c :: r, h => by
      rw [List.dropWhile_cons, if_neg (by simp [h c (List.mem_cons_self c r)])]

lemma cppTrim_eq_self (l : List Char) (h : ∀ c ∈ l, c ≠ ' ') : cppTrim l = l := by
  unfold cppTrim
  rw [dropWhile_eq_self_of_not l (fun c hc => by simp [h c hc]),
    dropWhile_eq_self_of_not l.reverse
      (fun c hc => by simp [h c (List.mem_reverse.mp hc)]),
    List.reverse_reverse]

lemma takeWhile_all_append {p : Char → Bool} :
    ∀ (k : List Char), (∀ c ∈ k, p c = true) →
      ∀ (x : Char) (v : List Char), p x = false →
        (k ++ x :: v).takeWhile p = k := by
  intro k
  induction k with
  | nil => intro _ x v hx; rw [List.nil_append, List.takeWhile_cons, if_neg (by simp [hx])]
  | cons c r ih =>
      intro h x v hx
      rw [List.cons_append, List.takeWhile_cons, if_pos (h c (List.mem_cons_self c r)),
        ih (fun d hd => h d (List.mem_cons_of_mem c hd)) x v hx]

lemma addKeyEqualsValue_split (ps : Params) (k v : List Char)
    (hk : ∀ c ∈ k, c ≠ '=' ∧ c ≠ ' ') (hv : ∀ c ∈ v, c ≠ ' ')
    (hfresh : ps (String.mk k) = none) (hnl : String.mk k ≠ "loadmodels") :
    FabberRunData.AddKeyEqualsValue ps (String.mk (k ++ '=' :: v)) false
      = .ok (setParam ps (String.mk k) (String.mk v)) := by
  have htake : (k ++ '=' :: v).takeWhile (fun c => c ≠ '=') = k :=
    takeWhile_all_append k (fun c hc => by simp [(hk c hc).1]) '=' v (by simp)
  have hkey : keyOf (String.mk (k ++ '=' :: v)) = String.mk k := by
    unfold keyOf
    rw [show (String.mk (k ++ '=' :: v)).toList = k ++ '=' :: v from rfl, htake,
      cppTrim_eq_self k (fun c hc => (hk c hc).2)]
  have hval : valueOf (String.mk (k ++ '=' :: v)) false = String.mk v := by
    unfold valueOf
    simp only [Bool.false_eq_true, if_false]
    rw [show (String.mk (k ++ '=' :: v)).toList = k ++ '=' :: v from rfl, htake,
      show k ++ '=' :: v = (k ++ ['=']) ++ v by simp,
      List.drop_left' (by simp), cppTrim_eq_self v hv]
  unfold FabberRunData.AddKeyEqualsValue
  rw [if_pos (show '=' ∈ (String.mk (k ++ '=' :: v)).toList from
    List.mem_append_right k (List.mem_cons_self '=' v))]
  simp only [hkey, hval, hfresh]
  rw [if_neg hnl]

lemma parseOldStyleAux_accum (fname : String) :
    ∀ (w : List Char), (∀ c ∈ w, isCSpace c = false) →
      ∀ (cs : List Char) (ps : Params) (word : List Char),
        ParseOldStyleAux fname (w ++ cs) ps word false
          = ParseOldStyleAux fname cs ps (word ++ w) false := by
  intro w
  induction w with
  | nil => intro _ cs ps word; simp
  | cons c r ih =>
      intro h cs ps word
      have hc : isCSpace c = false := h c (List.mem_cons_self c r)
      rw [List.cons_append, ParseOldStyleAux,
        if_pos (show ¬ isCSpace c = true by simp [hc]),
        ih (fun d hd => h d (List.mem_cons_of_mem c hd)) cs ps (word ++ [c])]
      simp

lemma parseOldStyleAux_dispatch (fname : String) (cs : List Char) (ps : Params)
    (word : List Char) (c : Char) (hc : isCSpace c = true) (hw : word ≠ []) :
    ParseOldStyleAux fname (c :: cs) ps word false
      = (if word.take 2 = ['-', '-'] then
          match FabberRunData.AddKeyEqualsValue ps (String.mk (word.drop 2)) false with
          | .error e => .error e
          | .ok ps2 => ParseOldStyleAux fname cs ps2 [] false
        else if word.take 1 = ['#'] then
          (if c = '\n' then ParseOldStyleAux fname cs ps [] false
           else ParseOldStyleAux fname cs ps [] true)
        else if word.take 2 = ['-', '@'] then
          .error (.runDataError "Can only use -@ on the command line")
        else .error (.runDataError
          ("Invalid data '" ++ String.mk word ++ "' found in file '" ++ fname ++ "'"))) := by
  rw [ParseOldStyleAux, if_neg (show ¬ ¬ isCSpace c = true by simp [hc]), if_neg hw]

lemma parseOldStyleAux_comment_mode (fname : String) (ps : Params) :
    ∀ (line rest : List Char), (∀ c ∈ line, c ≠ '\n') →
      ParseOldStyleAux fname (line ++ '\n' :: rest) ps [] true
        = ParseOldStyleAux fname rest ps [] false := by
  intro line
  induction line with
  | nil => intro rest _; rw [List.nil_append, ParseOldStyleAux, if_pos rfl]
  | cons c r ih =>
      intro rest h
      rw [List.cons_append, ParseOldStyleAux, if_neg (h c (List.mem_cons_self c r)),
        ih rest (fun d hd => h d (List.mem_cons_of_mem c hd))]

/-- Claim C7 (amended): the legacy -@ parameter file parser processes
whitespace-terminated words: a word "--key=value" records the option
key=value (the leading "--" is stripped and no inline-comment trimming is
applied); a word beginning with '#' starts a comment and the rest of that
line is discarded; a whitespace-terminated word beginning with "-@" raises
an error stating that -@ can only be used on the command line; any other
whitespace-terminated word raises an error naming the word and the file; a
final word not followed by any whitespace is discarded without effect. -/
theorem parse_old_style_spec (fname : String) (ps : Params) :
    (∀ (k v rest : String),
      (∀ c ∈ k.toList, isCSpace c = false ∧ c ≠ '=' ∧ c ≠ ' ') →
      (∀ c ∈ v.toList, isCSpace c = false ∧ c ≠ ' ') →
      ps k = none → k ≠ "loadmodels" →
      FabberRunData.ParseOldStyleParamFile fname ("--" ++ k ++ "=" ++ v ++ " " ++ rest) ps
        = ParseOldStyleAux fname rest.toList (setParam ps k v) [] false) ∧
    (∀ (cmt line rest : String),
      (∀ c ∈ cmt.toList, isCSpace c = false) →
      (∀ c ∈ line.toList, c ≠ '\n') →
      FabberRunData.ParseOldStyleParamFile fname
          ("#" ++ cmt ++ " " ++ line ++ "\n" ++ rest) ps
        = ParseOldStyleAux fname rest.toList ps [] false) ∧
    (∀ (t rest : String), (∀ c ∈ t.toList, isCSpace c = false) →
      FabberRunData.ParseOldStyleParamFile fname ("-@" ++ t ++ " " ++ rest) ps
        = .error (.runDataError "Can only use -@ on the command line")) ∧
    (∀ (w rest : String), w ≠ "" →
      (∀ c ∈ w.toList, isCSpace c = false) →
      w.toList.take 2 ≠ ['-', '-'] →
      w.toList.take 1 ≠ ['#'] →
      w.toList.take 2 ≠ ['-', '@'] →
      FabberRunData.ParseOldStyleParamFile fname (w ++ " " ++ rest) ps
        = .error (.runDataError
            ("Invalid data '" ++ w ++ "' found in file '" ++ fname ++ "'"))) ∧
    (∀ (w : String), (∀ c ∈ w.toList, isCSpace c = false) →
      FabberRunData.ParseOldStyleParamFile fname w ps = .ok ps) := by
  refine ⟨?_, ?_, ?_, ?_, ?_⟩
  · intro k v rest hk hv hfresh hnl
    unfold FabberRunData.ParseOldStyleParamFile
    have hsplit : ("--" ++ k ++ "=" ++ v ++ " " ++ rest).toList
        = (('-' :: '-' :: (k.toList ++ '=' :: v.toList)) ++ (' ' :: rest.toList)) := by
      simp [String.toList, String.data_append]
    rw [hsplit, parseOldStyleAux_accum fname _
      (by
        intro c hcmem
        rcases List.mem_cons.mp hcmem with h | h
        · subst h; rfl
        rcases List.mem_cons.mp h with h | h
        · subst h; rfl
        rcases List.mem_append.mp h with h | h
        · exact (hk c h).1
        rcases List.mem_cons.mp h with h | h
        · subst h; rfl
        · exact (hv c h).1) _ ps []]
    have hcond : ('-' :: '-' :: (k.toList ++ '=' :: v.toList)).take 2 = ['-', '-'] := rfl
    rw [List.nil_append, parseOldStyleAux_dispatch fname _ ps _ ' ' rfl (by simp),
      if_pos hcond]
    have hadd := addKeyEqualsValue_split ps k.toList v.toList
      (fun c hc => (hk c hc).2) (fun c hc => (hv c hc).2)
      (by exact hfresh) (by exact hnl)
    rw [show ('-' :: '-' :: (k.toList ++ '=' :: v.toList)).drop 2
        = k.toList ++ '=' :: v.toList from rfl, hadd]
    rfl
  · intro cmt line rest hcmt hline
    unfold FabberRunData.ParseOldStyleParamFile
    have hsplit : ("#" ++ cmt ++ " " ++ line ++ "\n" ++ rest).toList
        = (('#' :: cmt.toList) ++ (' ' :: (line.toList ++ '\n' :: rest.toList))) := by
      simp [String.toList, String.data_append]
    rw [hsplit, parseOldStyleAux_accum fname _
      (by
        intro c hcmem
        rcases List.mem_cons.mp hcmem with h | h
        · subst h; rfl
        · exact hcmt c h) _ ps []]
    rw [List.nil_append, parseOldStyleAux_dispatch fname _ ps _ ' ' rfl (by simp)]
    have h2 : ('#' :: cmt.toList).take 2 ≠ ['-', '-'] := by
      cases cmt.toList <;> simp [List.take_succ_cons]
    have h1 : ('#' :: cmt.toList).take 1 = ['#'] := rfl
    have hsp : ¬ (' ' = '\n') := by decide
    rw [if_neg h2, if_pos h1, if_neg hsp,
      parseOldStyleAux_comment_mode fname ps line.toList rest.toList hline]
  · intro t rest ht
    unfold FabberRunData.ParseOldStyleParamFile
    have hsplit : ("-@" ++ t ++ " " ++ rest).toList
        = (('-' :: '@' :: t.toList) ++ (' ' :: rest.toList)) := by
      simp [String.toList, String.data_append]
    rw [hsplit, parseOldStyleAux_accum fname _
      (by
        intro c hcmem
        rcases List.mem_cons.mp hcmem with h | h
        · subst h; rfl
        rcases List.mem_cons.mp h with h | h
        · subst h; rfl
        · exact ht c h) _ ps []]
    have h2 : ('-' :: '@' :: t.toList).take 2 ≠ ['-', '-'] := by
      simp [List.take_succ_cons]
    have h1 : ('-' :: '@' :: t.toList).take 1 ≠ ['#'] := by
      simp [List.take_succ_cons]
    rw [List.nil_append, parseOldStyleAux_dispatch fname _ ps _ ' ' rfl (by simp),
      if_neg h2, if_neg h1]
    rfl
  · intro w rest hw hns h2 h1 h3
    unfold FabberRunData.ParseOldStyleParamFile
    have hsplit : (w ++ " " ++ rest).toList = (w.toList ++ (' ' :: rest.toList)) := by
      simp [String.toList, String.data_append]
    have hwl : w.toList ≠ [] := by
      intro hnil
      exact hw (congrArg String.mk hnil)
    rw [hsplit, parseOldStyleAux_accum fname _ hns _ ps [], List.nil_append,
      parseOldStyleAux_dispatch fname _ ps _ ' ' rfl hwl,
      if_neg h2, if_neg h1, if_neg h3,
      show String.mk w.toList = w from rfl]
  · intro w hns
    unfold FabberRunData.ParseOldStyleParamFile
    rw [show w.toList = w.toList ++ [] by simp,
      parseOldStyleAux_accum fname _ hns [] ps [], ParseOldStyleAux]

/-- Claim C7 counterexample: the claim says the -@ parser supports no
comments and records every --key=value word; in the source a word
beginning with '#' discards the rest of the line, so in the file content
"--a=1 # --b=2\n--c=3 " the word --b=2 is swallowed by the comment and b
is never recorded, while a and c are. -/
theorem parse_old_style_counterexample :
    ∃ ps2, FabberRunData.ParseOldStyleParamFile "f" "--a=1 # --b=2\n--c=3 " emptyParams
        = .ok ps2 ∧
      ps2 "b" = none ∧ ps2 "a" = some "1" ∧ ps2 "c" = some "3" := by
  exact ⟨setParam (setParam emptyParams "a" "1") "c" "3", rfl, rfl, rfl, rfl⟩

/-- Witness for the amended claim C7: the single-word file "--a=1 "
records a = 1 and parsing continues on the empty remainder. -/
theorem parse_old_style_spec_witness :
    FabberRunData.ParseOldStyleParamFile "opts" "--a=1 " emptyParams
      = ParseOldStyleAux "opts" "".toList (setParam emptyParams "a" "1") [] false :=
  (parse_old_style_spec "opts" emptyParams).1 "a" "1" "" (by decide) (by decide)
    rfl (by decide)

/-- Claim C10: in FabberRunData::Parse, a "-f" argument consumes the
following argument as the parameter file name and then advances the loop
index once more, so the argument after the filename is skipped: parsing
continues at the position after it, the result does not depend on the
skipped argument, and an option placed in the skipped slot is never
recorded. -/
theorem parse_f_skips_following_argument (fileContents : String → String)
    (fname x y : String) (rest : List String) (ps : Params) :
    (FabberRunData.ParseArgsAux fileContents ("-f" :: fname :: x :: rest) ps
      = match FabberRunData.ParseParamFile (fileContents fname) ps with
        | .error e => .error e
        | .ok ps2 => FabberRunData.ParseArgsAux fileContents rest ps2) ∧
    (FabberRunData.ParseArgsAux fileContents ("-f" :: fname :: x :: rest) ps
      = FabberRunData.ParseArgsAux fileContents ("-f" :: fname :: y :: rest) ps) ∧
    (∃ ps2, FabberRunData.Parse (fun _ => "") "fabber" ["-f", "opts", "--method=vb"]
        = .ok ps2 ∧ ps2 "method" = none) := by
  refine ⟨rfl, rfl, setParam emptyParams "" "fabber", rfl, rfl⟩
